import Mathlib

/-!
Verification of the node-reference resolution and response-shape
normalization subsystem of the `alfresco-soap-api` client library.

JavaScript strings are embedded as `List Char` (`Str`).  JavaScript string
truthiness (`""` and `undefined` are falsy, any non-empty string is truthy)
is embedded through `Option Str` together with `strTruthy`.  The JavaScript
operations used by the source are embedded one by one:

* `s.split(t)` (for the two separators `"://"` and `"/"` that the source
  uses) as `splitOnArrow` / `splitOnSlash`, scanning left-to-right and
  cutting at each occurrence of the separator, exactly as JS `split`;
* `s.includes(t)` as `jsIncludes` (contiguous substring test);
* `a || b` on string-or-undefined values as `jsOrOpt` / `jsOrD`;
* `s.trim().toLowerCase()` as `normalizeNodeRef`;
* JS objects used as string maps as association lists (`List (Str × Str)`)
  with JS assignment semantics (`objInsert`, last write wins);
* `arr.find(p)` as `List.find?`, `s.startsWith`/`s.endsWith` as
  `List.isPrefixOf`/`isSuffixOf`.

Remote SOAP calls are embedded as explicit function parameters returning
`Option` results (`none` models the awaited call throwing).
-/

deriving instance DecidableEq for Except

/-- JavaScript strings, embedded as lists of characters. -/
abbrev Str := List Char

/-- Coerce a Lean string literal to the `Str` embedding. -/
def str (s : String) : Str := s.data

/-- JS truthiness of a `string | undefined` value: `undefined` and the empty
string are falsy, every other string is truthy. -/
def strTruthy : Option Str → Bool
  | some (_ :: _) => true
  | _ => false

/-- JS `a || b` on `string | undefined` values. -/
def jsOrOpt (a b : Option Str) : Option Str := if strTruthy a then a else b

/-- JS `a || d` where `d` is a (truthy) string default; yields a plain string. -/
def jsOrD (a : Option Str) (d : Str) : Str := if strTruthy a then a.getD [] else d

/-- JS `hay.includes(needle)`: contiguous substring test. -/
def jsIncludes : Str → Str → Bool
  | [], needle => needle.isEmpty
  | c :: rest, needle => needle.isPrefixOf (c :: rest) || jsIncludes rest needle

/-- Prepend a character to the first part of a split result (used to build
the part of the string that precedes the next separator occurrence). -/
def headCons (c : Char) : List Str → List Str
  | [] => [[c]]
  | s :: ss => (c :: s) :: ss

/-- JS `s.split('://')`: scan left-to-right, cutting at each occurrence of
the three-character separator `://`. -/
def splitOnArrow : Str → List Str
  | [] => [[]]
  | [c] => [[c]]
  | [c, d] => [[c, d]]
  | c :: d :: e :: rest =>
    if c = ':' ∧ d = '/' ∧ e = '/' then
      [] :: splitOnArrow rest
    else
      headCons c (splitOnArrow (d :: e :: rest))

/-- JS `s.split('/')`: scan left-to-right, cutting at each `/`. -/
def splitOnSlash : Str → List Str
  | [] => [[]]
  | c :: rest =>
    if c = '/' then [] :: splitOnSlash rest
    else headCons c (splitOnSlash rest)

/-- JS `s.split('/').pop()`: the last element of a slash split. -/
def lastSeg (l : Str) : Str := (splitOnSlash l).getLastD []

/-- JS `s.toLowerCase()` (on the ASCII range used by node references). -/
def toLowerStr (l : Str) : Str := l.map Char.toLower

/-- JS `s.trim()`: drop whitespace from both ends. -/
def trimStr (l : Str) : Str :=
  ((l.dropWhile Char.isWhitespace).reverse.dropWhile Char.isWhitespace).reverse

/-- `normalizeNodeRef` (src/alfresco-soap-api/src/index.ts): trim and
lower-case a node reference for robust comparison. -/
def normalizeNodeRef (ref : Str) : Str := toLowerStr (trimStr ref)

-- ===== Basic facts about the split embeddings =====

theorem splitOnArrow_ne_nil (l : Str) : splitOnArrow l ≠ [] := by
  induction l using splitOnArrow.induct with
  | case1 => simp [splitOnArrow]
  | case2 c => simp [splitOnArrow]
  | case3 c d => simp [splitOnArrow]
  | case4 c d e rest h ih => simp [splitOnArrow, h]
  | case5 c d e rest h ih =>
    simp only [splitOnArrow, if_neg h]
    cases hsp : splitOnArrow (d :: e :: rest) with
    | nil => exact absurd hsp ih
    | cons s ss => simp [headCons]

theorem splitOnSlash_ne_nil (l : Str) : splitOnSlash l ≠ [] := by
  induction l with
  | nil => simp [splitOnSlash]
  | cons c rest ih =>
    simp only [splitOnSlash]
    split
    · simp
    · cases hsp : splitOnSlash rest with
      | nil => exact absurd hsp ih
      | cons s ss => simp [headCons]

/-- The first part produced by `splitOnArrow` on a non-empty string is
either empty or starts with the string's first character. -/
theorem splitOnArrow_head_shape (a : Char) (l : Str) (s : Str) (ss : List Str)
    (h : splitOnArrow (a :: l) = s :: ss) : s = [] ∨ ∃ t, s = a :: t := by
  match l with
  | [] =>
    simp only [splitOnArrow] at h
    injection h with hs _
    exact Or.inr ⟨[], hs.symm⟩
  | [b] =>
    simp only [splitOnArrow] at h
    injection h with hs _
    exact Or.inr ⟨[b], hs.symm⟩
  | b :: c :: l' =>
    by_cases hpat : a = ':' ∧ b = '/' ∧ c = '/'
    · rw [splitOnArrow, if_pos hpat] at h
      injection h with hs _
      exact Or.inl hs.symm
    · rw [splitOnArrow, if_neg hpat] at h
      cases hsp : splitOnArrow (b :: c :: l') with
      | nil => exact absurd hsp (splitOnArrow_ne_nil _)
      | cons s' ss' =>
        rw [hsp] at h
        simp only [headCons] at h
        injection h with hs _
        exact Or.inr ⟨s', hs.symm⟩

/-- The first part produced by `splitOnArrow` on a string with at least two
characters is empty, a singleton of the first character, or starts with the
first two characters. -/
theorem splitOnArrow_head_shape2 (a b : Char) (l : Str) (s : Str) (ss : List Str)
    (h : splitOnArrow (a :: b :: l) = s :: ss) :
    s = [] ∨ s = [a] ∨ ∃ t, s = a :: b :: t := by
  match l with
  | [] =>
    simp only [splitOnArrow] at h
    injection h with hs _
    exact Or.inr (Or.inr ⟨[], hs.symm⟩)
  | c :: l' =>
    by_cases hpat : a = ':' ∧ b = '/' ∧ c = '/'
    · rw [splitOnArrow, if_pos hpat] at h
      injection h with hs _
      exact Or.inl hs.symm
    · rw [splitOnArrow, if_neg hpat] at h
      cases hsp : splitOnArrow (b :: c :: l') with
      | nil => exact absurd hsp (splitOnArrow_ne_nil _)
      | cons s' ss' =>
        rw [hsp] at h
        simp only [headCons] at h
        injection h with hs0 _
        have hs : s = a :: s' := hs0.symm
        rcases splitOnArrow_head_shape b (c :: l') s' ss' hsp with h0 | ⟨t, ht⟩
        · exact Or.inr (Or.inl (by rw [hs, h0]))
        · exact Or.inr (Or.inr ⟨t, by rw [hs, ht]⟩)

/-- Every part produced by `splitOnArrow` contains no further occurrence of
the separator: splitting it again returns it unchanged. -/
theorem splitOnArrow_parts (s : Str) : ∀ p ∈ splitOnArrow s, splitOnArrow p = [p] := by
  induction s using splitOnArrow.induct with
  | case1 => intro p hp; simp [splitOnArrow] at hp; simp [hp, splitOnArrow]
  | case2 c => intro p hp; simp [splitOnArrow] at hp; simp [hp, splitOnArrow]
  | case3 c d => intro p hp; simp [splitOnArrow] at hp; simp [hp, splitOnArrow]
  | case4 c d e rest h ih =>
    intro p hp
    simp only [splitOnArrow, if_pos h] at hp
    rcases List.mem_cons.mp hp with h1 | h1
    · simp [h1, splitOnArrow]
    · exact ih p h1
  | case5 c d e rest h ih =>
    intro p hp
    simp only [splitOnArrow, if_neg h] at hp
    cases hsp : splitOnArrow (d :: e :: rest) with
    | nil => exact absurd hsp (splitOnArrow_ne_nil _)
    | cons s' ss' =>
      rw [hsp] at hp
      simp only [headCons] at hp
      rcases List.mem_cons.mp hp with h1 | h1
      · subst h1
        have hmem : s' ∈ splitOnArrow (d :: e :: rest) := by
          rw [hsp]; exact List.mem_cons_self _ _
        have hs' : splitOnArrow s' = [s'] := ih s' hmem
        rcases splitOnArrow_head_shape2 d e rest s' ss' hsp with h0 | h0 | ⟨t, ht⟩
        · subst h0; simp [splitOnArrow]
        · subst h0; simp [splitOnArrow]
        · subst ht
          have hpat : ¬(c = ':' ∧ d = '/' ∧ e = '/') := h
          rw [splitOnArrow, if_neg hpat, hs']
          simp [headCons]
      · exact ih p (by rw [hsp]; exact List.mem_cons_of_mem _ h1)

/-- If a string does not contain the `://` separator, splitting on it
returns the string as the single part. -/
theorem splitOnArrow_of_not_includes (l : Str)
    (h : jsIncludes l (str "://") = false) : splitOnArrow l = [l] := by
  induction l using splitOnArrow.induct with
  | case1 => simp [splitOnArrow]
  | case2 c => simp [splitOnArrow]
  | case3 c d => simp [splitOnArrow]
  | case4 c d e rest hpat ih =>
    exfalso
    rcases hpat with ⟨hc, hd, he⟩
    subst hc; subst hd; subst he
    simp [jsIncludes, str, List.isPrefixOf] at h
  | case5 c d e rest hpat ih =>
    have hrest : jsIncludes (d :: e :: rest) (str "://") = false := by
      rw [jsIncludes, Bool.or_eq_false_iff] at h
      exact h.2
    rw [splitOnArrow, if_neg hpat, ih hrest]
    simp [headCons]

/-- Splitting `store ++ "://" ++ id` when neither part contains the
separator gives exactly the two parts back. -/
theorem splitOnArrow_append (store id : Str)
    (h1 : splitOnArrow store = [store]) (h2 : splitOnArrow id = [id]) :
    splitOnArrow (store ++ str "://" ++ id) = [store, id] := by
  induction store using splitOnArrow.induct with
  | case1 =>
    show splitOnArrow (':' :: '/' :: '/' :: id) = [[], id]
    rw [splitOnArrow, if_pos ⟨rfl, rfl, rfl⟩, h2]
  | case2 c =>
    show splitOnArrow (c :: ':' :: '/' :: '/' :: id) = [[c], id]
    have hpat : ¬(c = ':' ∧ ':' = '/' ∧ '/' = '/') := by simp
    rw [splitOnArrow, if_neg hpat]
    have hin : splitOnArrow (':' :: '/' :: '/' :: id) = [[], id] := by
      rw [splitOnArrow, if_pos ⟨rfl, rfl, rfl⟩, h2]
    rw [hin]
    simp [headCons]
  | case3 c d =>
    show splitOnArrow (c :: d :: ':' :: '/' :: '/' :: id) = [[c, d], id]
    have hpat : ¬(c = ':' ∧ d = '/' ∧ ':' = '/') := by simp
    rw [splitOnArrow, if_neg hpat]
    have hpat2 : ¬(d = ':' ∧ ':' = '/' ∧ '/' = '/') := by simp
    have hin : splitOnArrow (d :: ':' :: '/' :: '/' :: id) = [[d], id] := by
      rw [splitOnArrow, if_neg hpat2]
      have hin2 : splitOnArrow (':' :: '/' :: '/' :: id) = [[], id] := by
        rw [splitOnArrow, if_pos ⟨rfl, rfl, rfl⟩, h2]
      rw [hin2]
      simp [headCons]
    rw [hin]
    simp [headCons]
  | case4 c d e rest hpat ih =>
    exfalso
    rw [splitOnArrow, if_pos hpat] at h1
    injection h1 with hnil _
    exact List.noConfusion hnil
  | case5 c d e rest hpat ih =>
    have hsub : splitOnArrow (d :: e :: rest) = [d :: e :: rest] := by
      rw [splitOnArrow, if_neg hpat] at h1
      cases hsp : splitOnArrow (d :: e :: rest) with
      | nil => exact absurd hsp (splitOnArrow_ne_nil _)
      | cons s' ss' =>
        rw [hsp] at h1
        simp only [headCons] at h1
        injection h1 with hs hss
        injection hs with _ hs2
        rw [hs2, hss]
    have hih := ih hsub
    show splitOnArrow (c :: d :: e :: (rest ++ str "://" ++ id)) = [c :: d :: e :: rest, id]
    rw [splitOnArrow, if_neg hpat]
    have harr : d :: e :: (rest ++ str "://" ++ id) = (d :: e :: rest) ++ str "://" ++ id := by
      simp
    rw [harr, hih]
    simp [headCons]

-- ===== Reference Codec =====

/-- Result of `parseNodeRef` (src/alfresco-soap-api/src/models/NodeRef.ts):
JS `const [store, id] = nodeRef.split('://')` — `id` is `undefined` when the
split yields fewer than two parts. -/
structure ParsedRef where
  store : Str
  id : Option Str
deriving DecidableEq

/-- `parseNodeRef` (src/alfresco-soap-api/src/models/NodeRef.ts, lines 3-6):
split on `://` and take the first two parts. -/
def parseNodeRef (nodeRef : Str) : ParsedRef :=
  ⟨(splitOnArrow nodeRef).headD [], (splitOnArrow nodeRef)[1]?⟩

/-- `makeNodeRef` (src/alfresco-soap-api/src/models/NodeRef.ts, lines 8-10):
the template literal `store + "://" + id`. -/
def makeNodeRef (store id : Str) : Str := store ++ str "://" ++ id


/-- Three-part node reference as validated by `ContentService.read`
(src/alfresco-soap-api/src/services/ContentService.ts, lines 65-74). -/
structure NodeReference where
  scheme : Str
  address : Str
  id : Str
deriving DecidableEq

/-- The two malformed-reference errors thrown by `ContentService.read`:
`'Invalid nodeRef: ...'` (separator absent) and
`'Invalid nodeRef format: ...'` (missing or empty parts). -/
inductive MalformedReference where
  | invalidNodeRef (nodeRef : Str)
  | invalidFormat (nodeRef : Str)
deriving DecidableEq

/-- The scheme part destructured by `ContentService.read`:
`const [scheme, rest] = nodeRef.split('://')`. -/
def schemeOf (nodeRef : Str) : Str := (splitOnArrow nodeRef).headD []

/-- The address/id remainder destructured by `ContentService.read`
(`undefined` is embedded as the empty string; the value is only consulted
after the `://` guard, which guarantees the part exists). -/
def restOf (nodeRef : Str) : Str := ((splitOnArrow nodeRef)[1]?).getD []

/-- The address part: `const [address, id] = rest.split('/')`. -/
def addressOf (nodeRef : Str) : Str := (splitOnSlash (restOf nodeRef)).headD []

/-- The id part of the slash split (`[]` when it is absent). -/
def idOf (nodeRef : Str) : Str := ((splitOnSlash (restOf nodeRef))[1]?).getD []

/-- The reference validation and three-way split performed by
`ContentService.read` (ContentService.ts lines 67-74): reject when `://` is
absent; destructure `nodeRef.split('://')` into scheme and rest; when the
rest contains a `/`, destructure its slash split into address and id,
otherwise the id is `undefined` (so the falsy-parts check always rejects);
reject when scheme, address or id is falsy. -/
def contentReadParse (nodeRef : Str) : Except MalformedReference NodeReference :=
  if jsIncludes nodeRef (str "://") = false then
    .error (.invalidNodeRef nodeRef)
  else if jsIncludes (restOf nodeRef) (str "/") then
    match (splitOnSlash (restOf nodeRef))[1]? with
    | none => .error (.invalidFormat nodeRef)
    | some id =>
      if schemeOf nodeRef = [] ∨ addressOf nodeRef = [] ∨ id = [] then
        .error (.invalidFormat nodeRef)
      else .ok ⟨schemeOf nodeRef, addressOf nodeRef, id⟩
  else
    .error (.invalidFormat nodeRef)

/-- C4: for every input string, parse fails with `MalformedReference`
exactly when the string is malformed: when the `://` separator is absent,
when the remaining address/id portion cannot be further split on `/`, or
when any of the three resulting parts (scheme, address, id) is empty. -/
theorem parse_fails_iff_malformed (nodeRef : Str) :
    (∃ e, contentReadParse nodeRef = .error e) ↔
      (jsIncludes nodeRef (str "://") = false ∨
       jsIncludes (restOf nodeRef) (str "/") = false ∨
       schemeOf nodeRef = [] ∨ addressOf nodeRef = [] ∨ idOf nodeRef = []) := by
  rw [contentReadParse]
  by_cases h1 : jsIncludes nodeRef (str "://") = false
  · simp [h1]
  · rw [if_neg h1]
    have h1' : ¬(jsIncludes nodeRef (str "://") = false) := h1
    by_cases h2 : jsIncludes (restOf nodeRef) (str "/") = true
    · rw [if_pos h2]
      cases hid : (splitOnSlash (restOf nodeRef))[1]? with
      | none =>
        have hidOf : idOf nodeRef = [] := by rw [idOf, hid]; rfl
        dsimp only
        simp [h1', h2, hidOf]
      | some id =>
        have hidOf : idOf nodeRef = id := by rw [idOf, hid]; rfl
        dsimp only
        by_cases h3 : schemeOf nodeRef = [] ∨ addressOf nodeRef = [] ∨ id = []
        · rw [if_pos h3]
          rcases h3 with h3 | h3 | h3 <;> simp [h1', h2, hidOf, h3]
        · rw [if_neg h3]
          push_neg at h3
          simp [h1', h2, hidOf, h3.1, h3.2.1, h3.2.2]
    · have h2' : jsIncludes (restOf nodeRef) (str "/") = false := by
        cases hb : jsIncludes (restOf nodeRef) (str "/")
        · rfl
        · exact absurd hb h2
      rw [if_neg (by simp [h2'])]
      simp [h1', h2']

/-- C5 counterexample: the reference with store part `"a://b"` and id `"c"`
satisfies the claim's validity conditions (all parts non-empty, id free of
`://`), yet formatting and re-parsing does not return it: the parse cuts at
the first separator occurrence inside the store part. -/
theorem round_trip_fails_when_store_has_separator :
    (str "a://b" ≠ [] ∧ str "c" ≠ [] ∧ jsIncludes (str "c") (str "://") = false) ∧
      parseNodeRef (makeNodeRef (str "a://b") (str "c")) ≠
        ParsedRef.mk (str "a://b") (some (str "c")) := by
  constructor
  · exact ⟨by decide, by decide, by decide⟩
  · decide

/-- C5 (amended): round-trip holds for references whose store part also
contains no `://` separator; and for every string whose parse produces an id
part, formatting the parse result and re-parsing gives the same parse. -/
theorem round_trip_parse_format :
    (∀ store id : Str, store ≠ [] → id ≠ [] →
        jsIncludes store (str "://") = false → jsIncludes id (str "://") = false →
        parseNodeRef (makeNodeRef store id) = ⟨store, some id⟩) ∧
    (∀ s id', (parseNodeRef s).id = some id' →
        parseNodeRef (makeNodeRef (parseNodeRef s).store id') = parseNodeRef s) := by
  constructor
  · intro store id _ _ hstore hid
    have h1 := splitOnArrow_of_not_includes store hstore
    have h2 := splitOnArrow_of_not_includes id hid
    have happ := splitOnArrow_append store id h1 h2
    rw [makeNodeRef, parseNodeRef, happ]
    simp
  · intro s id' hid
    cases hsp : splitOnArrow s with
    | nil => exact absurd hsp (splitOnArrow_ne_nil _)
    | cons p0 rest =>
      cases rest with
      | nil =>
        rw [parseNodeRef, hsp] at hid
        simp at hid
      | cons p1 rest' =>
        have hid1 : id' = p1 := by
          rw [parseNodeRef, hsp] at hid
          simpa using hid.symm
        have hp0 : splitOnArrow p0 = [p0] :=
          splitOnArrow_parts s p0 (by rw [hsp]; exact List.mem_cons_self _ _)
        have hp1 : splitOnArrow p1 = [p1] :=
          splitOnArrow_parts s p1
            (by rw [hsp]; exact List.mem_cons_of_mem _ (List.mem_cons_self _ _))
        have happ := splitOnArrow_append p0 p1 hp0 hp1
        have hstore : (parseNodeRef s).store = p0 := by rw [parseNodeRef, hsp]; rfl
        rw [hstore, hid1, makeNodeRef, parseNodeRef, happ, parseNodeRef, hsp]
        simp

/-- C5 witness: the round-trip theorem applied to a concrete valid
reference. -/
theorem round_trip_parse_format_witness :
    parseNodeRef (makeNodeRef (str "workspace") (str "SpacesStore/abc-123")) =
      ⟨str "workspace", some (str "SpacesStore/abc-123")⟩ :=
  round_trip_parse_format.1 (str "workspace") (str "SpacesStore/abc-123")
    (by decide) (by decide) (by decide) (by decide)

-- ===== Response Shape Normalizer and Node Record Builder =====

/-- A column of an Alfresco result-set row: `{ name, value }`, either field
possibly absent. -/
structure Column where
  name : Option Str
  value : Option Str
deriving DecidableEq

/-- A raw per-node sub-record as it appears inside a SOAP response: any of
the fields the source reads may be absent. -/
structure RawNode where
  nodeRef : Option Str
  name : Option Str
  type : Option Str
  properties : Option (List (Str × Str))
  columns : Option (List Column)
deriving DecidableEq

/-- A `rows`-like value: either an array of sub-records or a bare object
(single sub-record), matching the `Array.isArray(x) ? x : [x]` coercions in
the source. -/
inductive RowsVal where
  | arr (l : List RawNode)
  | single (n : RawNode)
deriving DecidableEq

/-- Coerce a rows value to an array: `Array.isArray(x) ? x : [x]`. -/
def wrapRows : RowsVal → List RawNode
  | .arr l => l
  | .single n => [n]

/-- A nested result set: `resultSet.rows` (and `resultSet.row`, which
`RepositoryService.queryChildren` also consults). A present field is a JS
object or array and hence truthy. -/
structure ResultSet where
  rows : Option RowsVal
  row : Option RowsVal
deriving DecidableEq

/-- A non-array `queryReturn` object: it may expose a nested `resultSet`,
and it can itself be read as a bare node object (`asNode`). -/
structure QRObj where
  resultSet : Option ResultSet
  asNode : RawNode
deriving DecidableEq

/-- The `queryReturn` field: either an array of sub-records or an object. -/
inductive QueryReturn where
  | arr (l : List RawNode)
  | obj (o : QRObj)
deriving DecidableEq

/-- A raw response envelope with the fields the source (and the spec)
mentions. `items` is present only so the spec's claimed rule about a
generic `items` field can be stated; no function derived from the source
ever reads it. -/
structure Envelope where
  queryReturn : Option QueryReturn
  nodes : Option RowsVal
  getReturn : Option RowsVal
  items : Option RowsVal
deriving DecidableEq

/-- JS object-key lookup on an optional property bag:
`props?.[key]` (absent bag or absent key gives `undefined`). -/
def propLookup (props : Option (List (Str × Str))) (key : Str) : Option Str :=
  (props.getD []).lookup key

/-- `getCol` as defined in the source:
`columns?.find(c => c.name && c.name.includes(needle))?.value`. -/
def getCol (columns : Option (List Column)) (needle : Str) : Option Str :=
  ((columns.getD []).find? fun c =>
    strTruthy c.name && jsIncludes (c.name.getD []) needle).bind Column.value

/-- JS object assignment `m[k] = v`: replace the value when the key exists,
append otherwise (last write wins, insertion order preserved). -/
def objInsert (m : List (Str × Str)) (k v : Str) : List (Str × Str) :=
  if (m.lookup k).isSome then m.map fun p => if p.1 = k then (k, v) else p
  else m ++ [(k, v)]

/-- Rebuilding a property bag from a column array
(`node.columns.forEach(col => { if (col.name && col.value !== undefined)
properties[col.name] = col.value })`). -/
def columnsToProps (cols : List Column) : List (Str × Str) :=
  cols.foldl
    (fun m c =>
      if strTruthy c.name ∧ c.value.isSome then
        objInsert m (c.name.getD []) (c.value.getD [])
      else m)
    []

/-- A canonical node record as produced by the Normalizer + Builder
pipeline (`extractNodesFromQueryResponse` in src/unnamed/part_004 and the
mapping inside `RepositoryService.queryChildren` in src/unnamed/part_009):
every field defaulted, never absent. -/
structure NodeRecord where
  nodeRef : Str
  name : Str
  type : Str
  properties : List (Str × Str)
deriving DecidableEq

/-- The guard of the column-reconstruction branch of the builder:
`if (!nodeRef && Array.isArray(node.columns))`. -/
def colBranch (node : RawNode) : Bool :=
  !(strTruthy node.nodeRef) && node.columns.isSome

/-- The value of the mutable `nodeRef` variable after the
column-reconstruction step of `extractNodesFromQueryResponse`. -/
def reconNodeRef (node : RawNode) : Option Str :=
  if colBranch node then
    let protocol := getCol node.columns (str "store-protocol")
    let identifier := getCol node.columns (str "store-identifier")
    let uuid := getCol node.columns (str "node-uuid")
    if strTruthy protocol ∧ strTruthy identifier ∧ strTruthy uuid then
      some (protocol.getD [] ++ str "://" ++ identifier.getD [] ++ str "/" ++ uuid.getD [])
    else node.nodeRef
  else node.nodeRef

/-- The value of the mutable `name` variable after the
column-reconstruction step (`name = name || getCol('name') ||
getCol('cm:name')`). -/
def reconName (node : RawNode) : Option Str :=
  if colBranch node then
    jsOrOpt node.name
      (jsOrOpt (getCol node.columns (str "name")) (getCol node.columns (str "cm:name")))
  else node.name

/-- The value of the mutable `type` variable after the
column-reconstruction step. -/
def reconType (node : RawNode) : Option Str :=
  if colBranch node then
    jsOrOpt node.type
      (jsOrOpt (getCol node.columns (str "type")) (getCol node.columns (str "cm:type")))
  else node.type

/-- The value of the mutable `properties` variable after the
column-reconstruction step (`if (!properties && node.columns)` rebuild the
bag from the column array). -/
def reconProps (node : RawNode) : Option (List (Str × Str)) :=
  if colBranch node then
    if node.properties.isSome then node.properties
    else some (columnsToProps (node.columns.getD []))
  else node.properties

/-- The value of the `name` variable after the fallback extraction
(`if (!name) name = node.properties?.['cm:name'] || node.properties?.name
|| (nodeRef ? nodeRef.split('/').pop() : 'Unknown')`). -/
def finalName (node : RawNode) : Option Str :=
  if strTruthy (reconName node) then reconName node
  else
    jsOrOpt (propLookup node.properties (str "cm:name"))
      (jsOrOpt (propLookup node.properties (str "name"))
        (some (if strTruthy (reconNodeRef node) then
                 lastSeg ((reconNodeRef node).getD [])
               else str "Unknown")))

/-- The per-record body of the `map` inside `extractNodesFromQueryResponse`
(src/unnamed/part_004, lines 378-421): reconstruct the reference, name,
type and property bag from the columns when no direct reference is present,
then apply the name fallback chain and the `'unknown'`/`'Unknown'`
defaults.  The mutable local variables of the source are rendered as the
named functions above. -/
def buildRecord (node : RawNode) : NodeRecord :=
  { nodeRef := jsOrD (reconNodeRef node) (str "unknown")
    name := jsOrD (finalName node) (str "Unknown")
    type := jsOrD (reconType node) (str "unknown")
    properties := (reconProps node).getD [] }

/-- The first filter of `extractNodesFromQueryResponse`:
`node && (node.nodeRef || node.columns)`. -/
def keepRaw (n : RawNode) : Bool := strTruthy n.nodeRef || n.columns.isSome

/-- The shape-detection chain of `extractNodesFromQueryResponse`
(src/unnamed/part_004, lines 360-374): array `queryReturn`, then
`queryReturn.resultSet.rows`, then `queryReturn` wrapped, then `nodes`,
then `getReturn`, else empty. -/
def rawNodesFromQueryResponse (result : Envelope) : List RawNode :=
  match result.queryReturn with
  | some (.arr l) => l
  | some (.obj o) =>
    match o.resultSet with
    | some rs =>
      match rs.rows with
      | some rv => wrapRows rv
      | none => [o.asNode]
    | none => [o.asNode]
  | none =>
    match result.nodes with
    | some rv => wrapRows rv
    | none =>
      match result.getReturn with
      | some rv => wrapRows rv
      | none => []

/-- The raw sub-records an optional envelope yields (`if (!result) return
[]`). -/
def rawNodesOpt (result : Option Envelope) : List RawNode :=
  match result with
  | none => []
  | some env => rawNodesFromQueryResponse env

/-- `extractNodesFromQueryResponse` (src/unnamed/part_004, lines 356-423):
shape detection, the identity filter, the per-record builder, and the final
filter that drops records whose reference stayed `'unknown'`. -/
def extractNodesFromQueryResponse (result : Option Envelope) : List NodeRecord :=
  (((rawNodesOpt result).filter keepRaw).map buildRecord).filter
    fun nrec => !(nrec.nodeRef == str "unknown")

/-- The rows extracted by `RepositoryService.queryChildren`
(src/unnamed/part_009, lines 133-135): only when `queryReturn` is an object
exposing a `resultSet`; `rows || row || []`, coerced to an array. -/
def qcRows (result : Option Envelope) : List RawNode :=
  match result with
  | none => []
  | some env =>
    match env.queryReturn with
    | some (.obj o) =>
      match o.resultSet with
      | some rs =>
        match rs.rows with
        | some rv => wrapRows rv
        | none =>
          match rs.row with
          | some rv => wrapRows rv
          | none => []
      | none => []
    | _ => []

/-- The per-row mapping inside `RepositoryService.queryChildren`
(src/unnamed/part_009, lines 136-151): a reference rebuilt from the three
well-known columns takes priority, otherwise `row.nodeRef`; name and type
fall back to column lookups; `'unknown'`/`'Unknown'` defaults. -/
def buildChildRow (row : RawNode) : NodeRecord :=
  let protocol := getCol row.columns (str "store-protocol")
  let identifier := getCol row.columns (str "store-identifier")
  let uuid := getCol row.columns (str "node-uuid")
  let nodeRef1 :=
    if strTruthy protocol ∧ strTruthy identifier ∧ strTruthy uuid then
      some (protocol.getD [] ++ str "://" ++ identifier.getD [] ++ str "/" ++ uuid.getD [])
    else row.nodeRef
  let name1 :=
    jsOrOpt row.name
      (jsOrOpt (getCol row.columns (str "name")) (getCol row.columns (str "cm:name")))
  let type1 :=
    jsOrOpt row.type
      (jsOrOpt (getCol row.columns (str "type")) (getCol row.columns (str "cm:type")))
  { nodeRef := jsOrD nodeRef1 (str "unknown")
    name := jsOrD name1 (str "Unknown")
    type := jsOrD type1 (str "unknown")
    properties := row.properties.getD [] }

/-- `RepositoryService.queryChildren` response processing
(src/unnamed/part_009, lines 133-154): extract the rows, map each through
the builder, drop records whose reference stayed `'unknown'`.  (The
source's `.filter(row => row)` null filter is the identity here because the
embedding has no null rows; branches in which the source returns `[]`
directly are the branches in which `qcRows` is `[]`.) -/
def queryChildren (result : Option Envelope) : List NodeRecord :=
  ((qcRows result).map buildChildRow).filter
    fun nrec => !(nrec.nodeRef == str "unknown")

/-- A raw sub-record both filters of the pipelines keep:
it survives `node && (node.nodeRef || node.columns)` and its built record's
reference is not the `'unknown'` sentinel. -/
def constructibleRaw (n : RawNode) : Bool :=
  keepRaw n && !((buildRecord n).nodeRef == str "unknown")

/-- A result-set row from which `queryChildren` can construct a record. -/
def constructibleRow (row : RawNode) : Bool :=
  !((buildChildRow row).nodeRef == str "unknown")

/-- Modelled from the spec: the shape-detection priority rules exactly as
section 4.2 (claim C2) states them — (1) the envelope is itself a
sequence, (2) a nested result set's `rows`, (3) a singular result field,
(4) a generic `items` or `nodes` field, (5) the empty sequence.  This is
the claimed algorithm, to be compared against
`rawNodesFromQueryResponse`, which is the source's. -/
def specShapeSelect (result : Envelope) : List RawNode :=
  match result.queryReturn with
  | some (.arr l) => l
  | some (.obj o) =>
    match o.resultSet with
    | some rs =>
      match rs.rows with
      | some rv => wrapRows rv
      | none => [o.asNode]
    | none => [o.asNode]
  | none =>
    match result.items with
    | some rv => wrapRows rv
    | none =>
      match result.nodes with
      | some rv => wrapRows rv
      | none => []

/-- The amended shape-detection rules: as claimed, except that rule 4 reads
the `nodes` field only (no `items` rule — the source never reads such a
field) and a fifth rule reads the legacy `getReturn` field before falling
back to the empty sequence. -/
def amendedShapeSelect (result : Envelope) : List RawNode :=
  match result.queryReturn with
  | some (.arr l) => l
  | some (.obj o) =>
    match o.resultSet with
    | some rs =>
      match rs.rows with
      | some rv => wrapRows rv
      | none => [o.asNode]
    | none => [o.asNode]
  | none =>
    match result.nodes with
    | some rv => wrapRows rv
    | none =>
      match result.getReturn with
      | some rv => wrapRows rv
      | none => []

-- ===== Concrete fixtures for the Normalizer / Builder claims =====

/-- An empty raw sub-record (used as the bare-object view of envelopes
whose object view is never consulted). -/
def dummyRaw : RawNode := ⟨none, none, none, none, none⟩

/-- A direct-field sub-record named Alpha. -/
def rawAl : RawNode :=
  ⟨some (str "workspace://SpacesStore/aaa-111"), some (str "Alpha"),
   some (str "cm:folder"), none, none⟩

/-- A direct-field sub-record named Beta. -/
def rawBe : RawNode :=
  ⟨some (str "workspace://SpacesStore/bbb-222"), some (str "Beta"),
   some (str "cm:folder"), none, none⟩

/-- The record the pipeline builds from `rawAl`. -/
def recAl : NodeRecord :=
  ⟨str "workspace://SpacesStore/aaa-111", str "Alpha", str "cm:folder", []⟩

/-- The record the pipeline builds from `rawBe`. -/
def recBe : NodeRecord :=
  ⟨str "workspace://SpacesStore/bbb-222", str "Beta", str "cm:folder", []⟩

/-- Column-array sub-record reconstructing to `rawAl`'s reference. -/
def colRawAl : RawNode :=
  ⟨none, none, none, none,
   some [⟨some (str "store-protocol"), some (str "workspace")⟩,
         ⟨some (str "store-identifier"), some (str "SpacesStore")⟩,
         ⟨some (str "node-uuid"), some (str "aaa-111")⟩,
         ⟨some (str "cm:name"), some (str "Alpha")⟩]⟩

/-- Column-array sub-record reconstructing to `rawBe`'s reference. -/
def colRawBe : RawNode :=
  ⟨none, none, none, none,
   some [⟨some (str "store-protocol"), some (str "workspace")⟩,
         ⟨some (str "store-identifier"), some (str "SpacesStore")⟩,
         ⟨some (str "node-uuid"), some (str "bbb-222")⟩,
         ⟨some (str "cm:name"), some (str "Beta")⟩]⟩

/-- Column-array sub-record with no `node-uuid` column: unconstructible. -/
def colRawNoUuid : RawNode :=
  ⟨none, none, none, none,
   some [⟨some (str "store-protocol"), some (str "workspace")⟩,
         ⟨some (str "store-identifier"), some (str "SpacesStore")⟩,
         ⟨some (str "cm:name"), some (str "Gamma")⟩]⟩

/-- Shape 1: bare array of two records. -/
def shapeBareArr : Envelope := ⟨some (.arr [rawAl, rawBe]), none, none, none⟩

/-- Shape 2: nested `resultSet.rows` array of two records. -/
def shapeRowsArr : Envelope :=
  ⟨some (.obj ⟨some ⟨some (.arr [rawAl, rawBe]), none⟩, dummyRaw⟩), none, none, none⟩

/-- Shape 3: nested `resultSet.rows` bare single object. -/
def shapeRowsSingle : Envelope :=
  ⟨some (.obj ⟨some ⟨some (.single rawAl), none⟩, dummyRaw⟩), none, none, none⟩

/-- Shape 4: column-array records with no direct reference field. -/
def shapeColumns : Envelope := ⟨some (.arr [colRawAl, colRawBe]), none, none, none⟩

/-- An envelope exposing only the legacy `getReturn` field. -/
def envGetReturnOnly : Envelope := ⟨none, none, some (.arr [rawAl]), none⟩

/-- An envelope exposing only a generic `items` field. -/
def envItemsOnly : Envelope := ⟨none, none, none, some (.arr [rawAl])⟩

/-- A `queryChildren` result set of three rows of which the middle one
lacks the `node-uuid` column. -/
def qcEnvThreeRows : Envelope :=
  ⟨some (.obj ⟨some ⟨some (.arr [colRawAl, colRawNoUuid, colRawBe]), none⟩, dummyRaw⟩),
   none, none, none⟩

/-- The raw sub-record of the C6 fallback scenario: a valid reference but
no name field, no properties and no columns. -/
def rawNoName : RawNode :=
  ⟨some (str "workspace://SpacesStore/abc-123"), none, none, none, none⟩

/-- An envelope containing only `rawNoName`. -/
def envNoName : Envelope := ⟨some (.arr [rawNoName]), none, none, none⟩

/-- C2 counterexample: envelopes carrying the records only under the
legacy `getReturn` field or under a generic `items` field separate the
claimed rule list from the source's shape detection — the source reads
`getReturn` (the claimed rules produce the empty sequence there) and never
reads `items` (the claimed rules produce the records there); the
difference survives the full pipeline. -/
theorem shape_rules_counterexample :
    rawNodesFromQueryResponse envGetReturnOnly ≠ specShapeSelect envGetReturnOnly ∧
    rawNodesFromQueryResponse envItemsOnly ≠ specShapeSelect envItemsOnly ∧
    extractNodesFromQueryResponse (some envGetReturnOnly) ≠ [] ∧
    specShapeSelect envGetReturnOnly = [] := by
  refine ⟨by decide, by decide, by decide, by decide⟩

/-- C2 (amended): the Normalizer selects the raw sub-records by the first
matching rule of the priority order (1) array envelope, (2) nested
result-set `rows` (single object coerced), (3) singular result field
wrapped, (4) generic `nodes` field, (5) legacy `getReturn` field, (6)
empty — and the four known shapes produce the same records with correctly
reconstructed references. -/
theorem shape_selection_amended :
    (∀ env, rawNodesFromQueryResponse env = amendedShapeSelect env) ∧
    extractNodesFromQueryResponse (some shapeBareArr) = [recAl, recBe] ∧
    extractNodesFromQueryResponse (some shapeRowsArr) = [recAl, recBe] ∧
    extractNodesFromQueryResponse (some shapeRowsSingle) = [recAl] ∧
    (extractNodesFromQueryResponse (some shapeColumns)).map NodeRecord.nodeRef =
      [recAl.nodeRef, recBe.nodeRef] ∧
    (extractNodesFromQueryResponse (some shapeColumns)).map NodeRecord.name =
      [recAl.name, recBe.name] := by
  refine ⟨fun env => rfl, by decide, by decide, by decide, by decide, by decide⟩

/-- Truthy optional strings unwrap to a non-empty string. -/
theorem strTruthy_getD_ne_nil (o : Option Str) (h : strTruthy o = true) :
    o.getD [] ≠ [] := by
  match o with
  | none => simp [strTruthy] at h
  | some [] => simp [strTruthy] at h
  | some (c :: cs) => simp

/-- `jsOrD` with a non-empty default never yields the empty string. -/
theorem jsOrD_ne_nil (o : Option Str) (d : Str) (hd : d ≠ []) : jsOrD o d ≠ [] := by
  rw [jsOrD]
  split
  · exact strTruthy_getD_ne_nil o (by assumption)
  · exact hd

/-- C3: a sub-record that carries neither a canonical reference nor a
column bag from which one can be reconstructed is absent from the final
output, the output never contains the `'unknown'` sentinel reference, and
the output's length is exactly the count of constructible inputs — for the
`RepositoryService.queryChildren` pipeline and for the
Normalizer + Builder pipeline, with the concrete three-row instance (one
row missing the uuid column) yielding exactly the two constructible
records. -/
theorem unconstructible_records_dropped :
    (∀ result nrec, nrec ∈ queryChildren result → nrec.nodeRef ≠ str "unknown") ∧
    (∀ result, (queryChildren result).length = (qcRows result).countP constructibleRow) ∧
    (∀ result nrec, nrec ∈ extractNodesFromQueryResponse result →
       nrec.nodeRef ≠ str "unknown") ∧
    (∀ result, (extractNodesFromQueryResponse result).length =
       (rawNodesOpt result).countP constructibleRaw) ∧
    queryChildren (some qcEnvThreeRows) =
      [⟨recAl.nodeRef, recAl.name, str "unknown", []⟩,
       ⟨recBe.nodeRef, recBe.name, str "unknown", []⟩] ∧
    (qcRows (some qcEnvThreeRows)).length = 3 ∧
    (queryChildren (some qcEnvThreeRows)).length = 2 := by
  refine ⟨?_, ?_, ?_, ?_, by decide, by decide, by decide⟩
  · intro result nrec hmem
    have h := (List.mem_filter.mp hmem).2
    simpa using h
  · intro result
    rw [queryChildren, ← List.countP_eq_length_filter, List.countP_map]
    rfl
  · intro result nrec hmem
    have h := (List.mem_filter.mp hmem).2
    simpa using h
  · intro result
    rw [extractNodesFromQueryResponse, ← List.countP_eq_length_filter, List.countP_map,
      List.countP_filter]
    refine List.countP_congr fun n _ => ?_
    simp [constructibleRaw, Function.comp, Bool.and_comm]

/-- C6: the built record's name follows the resolution order — explicit
name field, then a name property located by substring match over the
column bag, then the last path segment of the reference, then the literal
`'Unknown'`; the concrete fallback scenario (valid reference
`workspace://SpacesStore/abc-123`, no name anywhere) yields `abc-123`; and
the returned name is never the empty string. -/
theorem name_resolution_chain :
    extractNodesFromQueryResponse (some envNoName) =
      [⟨str "workspace://SpacesStore/abc-123", str "abc-123", str "unknown", []⟩] ∧
    (∀ result nrec, nrec ∈ extractNodesFromQueryResponse result → nrec.name ≠ []) ∧
    (∀ n, strTruthy n.name = true → (buildRecord n).name = n.name.getD []) ∧
    (∀ n, strTruthy n.name = false → strTruthy n.nodeRef = false →
       n.columns.isSome = true → strTruthy (getCol n.columns (str "name")) = true →
       (buildRecord n).name = (getCol n.columns (str "name")).getD []) ∧
    (∀ n, n.name = none → n.properties = none → n.columns = none →
       strTruthy n.nodeRef = true → lastSeg (n.nodeRef.getD []) ≠ [] →
       (buildRecord n).name = lastSeg (n.nodeRef.getD [])) ∧
    (∀ n, n.name = none → n.properties = none → n.columns = none → n.nodeRef = none →
       (buildRecord n).name = str "Unknown") := by
  refine ⟨by decide, ?_, ?_, ?_, ?_, ?_⟩
  · intro result nrec hmem
    have h := (List.mem_filter.mp hmem).1
    rcases List.mem_map.mp h with ⟨n, _, hn⟩
    rw [← hn]
    show jsOrD (finalName n) (str "Unknown") ≠ []
    exact jsOrD_ne_nil _ _ (by decide)
  · intro n h
    have hr : reconName n = n.name := by
      rw [reconName]
      split
      · rw [jsOrOpt, if_pos h]
      · rfl
    show jsOrD (finalName n) (str "Unknown") = n.name.getD []
    rw [finalName, hr, if_pos h, jsOrD, if_pos h]
  · intro n hname hnoRef hcols hcolName
    have hbr : colBranch n = true := by
      rw [colBranch, hnoRef, hcols]
      rfl
    have hr : reconName n = getCol n.columns (str "name") := by
      rw [reconName, if_pos hbr, jsOrOpt, if_neg (by rw [hname]; exact Bool.false_ne_true),
        jsOrOpt, if_pos hcolName]
    show jsOrD (finalName n) (str "Unknown") = (getCol n.columns (str "name")).getD []
    rw [finalName, hr, if_pos hcolName, jsOrD, if_pos hcolName]
  · intro n hname hprops hcols href hseg
    have hbr : colBranch n = false := by
      rw [colBranch, hcols]
      simp
    have hrn : reconName n = none := by rw [reconName, if_neg (by rw [hbr]; simp), hname]
    have hrr : reconNodeRef n = n.nodeRef := by
      rw [reconNodeRef, if_neg (by rw [hbr]; simp)]
    have hfin : finalName n = some (lastSeg (n.nodeRef.getD [])) := by
      rw [finalName, hrn]
      rw [if_neg (by simp [strTruthy])]
      rw [propLookup, propLookup, hprops]
      simp only [Option.getD_none, List.lookup_nil]
      rw [jsOrOpt, if_neg (by simp [strTruthy]), jsOrOpt, if_neg (by simp [strTruthy])]
      rw [hrr, if_pos href]
    show jsOrD (finalName n) (str "Unknown") = lastSeg (n.nodeRef.getD [])
    rw [hfin, jsOrD]
    have ht : strTruthy (some (lastSeg (n.nodeRef.getD []))) = true := by
      cases hl : lastSeg (n.nodeRef.getD []) with
      | nil => exact absurd hl hseg
      | cons a l => rfl
    rw [if_pos ht]
    rfl
  · intro n hname hprops hcols href
    have hbr : colBranch n = false := by
      rw [colBranch, hcols]
      simp
    have hrn : reconName n = none := by rw [reconName, if_neg (by rw [hbr]; simp), hname]
    have hrr : reconNodeRef n = none := by
      rw [reconNodeRef, if_neg (by rw [hbr]; simp), href]
    have hfin : finalName n = some (str "Unknown") := by
      rw [finalName, hrn]
      rw [if_neg (by simp [strTruthy])]
      rw [propLookup, propLookup, hprops]
      simp only [Option.getD_none, List.lookup_nil]
      rw [jsOrOpt, if_neg (by simp [strTruthy]), jsOrOpt, if_neg (by simp [strTruthy])]
      rw [hrr]
      rfl
    show jsOrD (finalName n) (str "Unknown") = str "Unknown"
    rw [hfin, jsOrD, if_pos (by decide)]
    rfl

/-- C6 witness: the name chain theorem applied to the concrete fallback
sub-record. -/
theorem name_resolution_chain_witness :
    (buildRecord rawNoName).name = lastSeg (rawNoName.nodeRef.getD []) :=
  name_resolution_chain.2.2.2.2.1 rawNoName (by decide) (by decide) (by decide)
    (by decide) (by decide)

-- ===== Path Resolver =====

/-- An association entry of a fetched node. -/
structure AlfAssoc where
  associationType : Option Str
  target : Option Str
deriving DecidableEq

/-- A node object as returned by `repoService.get`, with the fields the
resolver reads; any of them may be absent. -/
structure AlfNode where
  nodeRef : Option Str
  name : Option Str
  type : Option Str
  properties : Option (List (Str × Str))
  parent : Option Str
  parentNodeRef : Option Str
  aspects : Option (List (Str × Str))
  associations : Option (List AlfAssoc)
deriving DecidableEq

/-- The errors `resolvePathForNodeRef` throws
(src/alfresco-soap-api/src/index.ts, lines 92-152). -/
inductive ResolveError where
  | invalidNodeRef
  | recursionLimit (nodeRef : Str)
  | fetchFailed (nodeRef : Str)
  | cannotResolveParent (nodeRef : Str)
  | nodeHasNoName (nodeRef : Str)
deriving DecidableEq

/-- JS `suffix.isSuffixOf`-style `s.endsWith(t)`. -/
def endsWithStr (l suffix : Str) : Bool := suffix.isSuffixOf l

/-- The company-home terminal test of the resolver (index.ts lines
110-114): the passed reference or the fetched node's reference normalizes
to the company-home reference, or the node's properties mark it as the
root by icon or display name. -/
def isCompanyHomeNode (companyHomeNodeRef : Option Str) (nodeRef : Str)
    (node : AlfNode) : Bool :=
  (strTruthy companyHomeNodeRef &&
    (normalizeNodeRef nodeRef == normalizeNodeRef (companyHomeNodeRef.getD []))) ||
  (strTruthy node.nodeRef && strTruthy companyHomeNodeRef &&
    (normalizeNodeRef (node.nodeRef.getD []) ==
      normalizeNodeRef (companyHomeNodeRef.getD []))) ||
  (node.properties.isSome &&
    ((propLookup node.properties (str "app:icon") == some (str "company_home")) ||
     (node.name == some (str "Company Home"))))

/-- The multi-strategy parent extraction of the resolver (index.ts lines
120-135): direct `parent` field, `parentNodeRef`, the `cm:parent` /
`cm:parentAssoc` properties, the `cm:parent` aspect, then a scan of the
associations list for an association type containing `'parent'` with a
truthy target. -/
def parentAssocOf (node : AlfNode) : Option Str :=
  let direct :=
    jsOrOpt node.parent
      (jsOrOpt node.parentNodeRef
        (jsOrOpt (propLookup node.properties (str "cm:parent"))
          (jsOrOpt (propLookup node.properties (str "cm:parentAssoc"))
            (jsOrOpt ((node.aspects.getD []).lookup (str "cm:parent")) none))))
  if strTruthy direct then direct
  else
    match node.associations with
    | some assocs =>
      match assocs.find? (fun a =>
          strTruthy a.associationType &&
          jsIncludes (a.associationType.getD []) (str "parent")) with
      | some aObj => if strTruthy aObj.target then aObj.target else direct
      | none => direct
    | none => direct

/-- The resolved display name of a fetched node:
`node.name || node.properties?.['cm:name']`. -/
def resolvedNameOf (node : AlfNode) : Option Str :=
  jsOrOpt node.name (propLookup node.properties (str "cm:name"))

/-- The namespace tag prepended to a path element:
`type && type.startsWith('cm:') ? 'cm:' : ''`. -/
def nsTagOf (node : AlfNode) : Str :=
  let t := jsOrOpt node.type (propLookup node.properties (str "cm:type"))
  if strTruthy t && (str "cm:").isPrefixOf (t.getD []) then str "cm:" else []

/-- The recursion of `resolvePathForNodeRef`, structured on the remaining
recursion budget `gas = 51 - depth`: the source checks `depth > 50` (i.e.
`gas = 0`) after the invalid-reference check and recurses with `depth + 1`
(i.e. `gas - 1`).  `get` is `repoService.get` (`none` = the awaited call
threw). -/
def resolveAux (get : Str → Option AlfNode) (companyHomeNodeRef : Option Str) :
    Nat → Str → Except ResolveError Str
  | 0, nodeRef =>
    if nodeRef = [] then .error .invalidNodeRef
    else .error (.recursionLimit nodeRef)
  | gas + 1, nodeRef =>
    if nodeRef = [] then .error .invalidNodeRef
    else
      match get nodeRef with
      | none => .error (.fetchFailed nodeRef)
      | some node =>
        if isCompanyHomeNode companyHomeNodeRef nodeRef node then
          .ok (str "/app:company_home")
        else if strTruthy node.nodeRef &&
            endsWithStr (node.nodeRef.getD []) (str "://root") then
          .ok (str "/")
        else
          match parentAssocOf node with
          | none => .error (.cannotResolveParent nodeRef)
          | some parentRef =>
            if parentRef = [] then .error (.cannotResolveParent nodeRef)
            else
              match resolveAux get companyHomeNodeRef gas parentRef with
              | .error e => .error e
              | .ok parentPath =>
                match resolvedNameOf node with
                | none => .error (.nodeHasNoName nodeRef)
                | some nodeName =>
                  if nodeName = [] then .error (.nodeHasNoName nodeRef)
                  else if endsWithStr parentPath (str "/") then
                    .ok (parentPath ++ nsTagOf node ++ nodeName)
                  else
                    .ok (parentPath ++ str "/" ++ nsTagOf node ++ nodeName)

/-- `resolvePathForNodeRef` (src/alfresco-soap-api/src/index.ts, lines
92-152): recursively resolve the full Lucene path of a node reference.
The `depth` parameter of the source is translated to the structural budget
`51 - depth`; `depth > 50` is exactly `51 - depth = 0`. -/
def resolvePathForNodeRef (get : Str → Option AlfNode) (nodeRef : Str)
    (depth : Nat) (companyHomeNodeRef : Option Str) : Except ResolveError Str :=
  resolveAux get companyHomeNodeRef (51 - depth) nodeRef

-- ===== Navigation Façade =====

/-- A store descriptor `{ scheme, address }` (from the client config). -/
structure StoreRef where
  scheme : Str
  address : Str
deriving DecidableEq

/-- The type of `repoService.query` as the façade uses it: store object and
Lucene statement to an envelope (`none` = the awaited call threw; the
`language: 'lucene'` and `includeMetaData: false` arguments are the same
constants at every call site). -/
abbrev QueryFn := StoreRef → Str → Option Envelope

/-- The Lucene statement issued for the company-home lookup. -/
def companyHomeStmt : Str := str "PATH:\"/app:company_home\""

/-- The Lucene statement issued for the root's immediate children. -/
def rootChildrenStmt : Str := str "PATH:\"/app:company_home/*\""

/-- The Lucene statement issued for a resolved path's immediate children:
`PATH:"${path}/*"`. -/
def pathStarStmt (path : Str) : Str := str "PATH:\"" ++ path ++ str "/*\""

/-- The row-digging helper `firstRowFromResponse` inside `getCompanyHome`
(src/alfresco-soap-api/src/index.ts, lines 45-56): first row of an array
`queryReturn` (undefined when the array is empty), first row of
`resultSet.rows`, the `queryReturn` object itself, first of `nodes`, first
of `getReturn`, else undefined. -/
def firstRowFromResponse (r : Option Envelope) : Option RawNode :=
  match r with
  | none => none
  | some env =>
    match env.queryReturn with
    | some (.arr l) => l[0]?
    | some (.obj o) =>
      match o.resultSet with
      | some rs =>
        match rs.rows with
        | some (.arr l) => l[0]?
        | some (.single n) => some n
        | none => some o.asNode
      | none => some o.asNode
    | none =>
      match env.nodes with
      | some (.arr l) => l[0]?
      | some (.single n) => some n
      | none =>
        match env.getReturn with
        | some (.arr l) => l[0]?
        | some (.single n) => some n
        | none => none

/-- The errors `getCompanyHome` can raise: the query threw, the response
held no row, or no reference could be determined. -/
inductive ChErr where
  | queryThrew
  | emptyResponse
  | noNodeRef
deriving DecidableEq

/-- The company-home lookup result `{ nodeRef, name }`. -/
structure CompanyHome where
  nodeRef : Str
  name : Str
deriving DecidableEq

/-- `getCompanyHome` (src/alfresco-soap-api/src/index.ts, lines 33-84):
query `PATH:"/app:company_home"`, dig out the first row, read `nodeRef`
and `name` directly or reconstruct them from the columns array, default
the name to `'Company Home'`. -/
def getCompanyHome (q : QueryFn) (store : StoreRef) : Except ChErr CompanyHome :=
  match q store companyHomeStmt with
  | none => .error .queryThrew
  | some res =>
    match firstRowFromResponse (some res) with
    | none => .error .emptyResponse
    | some row =>
      let nodeRef0 := row.nodeRef
      let name0 := row.name
      let reconstructed : Option Str × Option Str :=
        if strTruthy nodeRef0 = false ∧ row.columns.isSome then
          let protocol := getCol row.columns (str "store-protocol")
          let identifier := getCol row.columns (str "store-identifier")
          let uuid := getCol row.columns (str "node-uuid")
          let nodeRef1 :=
            if strTruthy protocol ∧ strTruthy identifier ∧ strTruthy uuid then
              some (protocol.getD [] ++ str "://" ++ identifier.getD [] ++
                str "/" ++ uuid.getD [])
            else nodeRef0
          (nodeRef1, jsOrOpt name0 (getCol row.columns (str "name")))
        else (nodeRef0, name0)
      if strTruthy reconstructed.1 then
        .ok ⟨reconstructed.1.getD [], jsOrD reconstructed.2 (str "Company Home")⟩
      else .error .noNodeRef

/-- The crude node extraction of `getChildren` in src/index.ts (lines
175-176 and 193-194): `result.queryReturn || result.nodes || []`, coerced
to an array. -/
def crudeNodes (env : Envelope) : List RawNode :=
  match env.queryReturn with
  | some (.arr l) => l
  | some (.obj o) => [o.asNode]
  | none =>
    match env.nodes with
    | some rv => wrapRows rv
    | none => []

/-- The records `getChildren` in src/index.ts maps each crude node to
(lines 177-182): optional fields carried through, the name falling back to
`cm:name` and then to the reference. -/
structure MappedNode where
  nodeRef : Option Str
  name : Option Str
  type : Option Str
  properties : Option (List (Str × Str))
deriving DecidableEq

/-- The per-node map of `getChildren` in src/index.ts. -/
def mapSimple (node : RawNode) : MappedNode :=
  { nodeRef := node.nodeRef
    name := jsOrOpt node.name
      (jsOrOpt (propLookup node.properties (str "cm:name")) node.nodeRef)
    type := node.type
    properties := node.properties }

/-- The errors `getChildren` (src/index.ts) can surface. -/
inductive GcErr where
  | companyHome (e : ChErr)
  | rootQueryFailed
  | resolveFailed (e : ResolveError)
  | pathQueryFailed
deriving DecidableEq

/-- `getChildren` (src/alfresco-soap-api/src/index.ts, lines 154-201):
authenticate, look up company home, take the fixed root query when the
normalized reference matches one of the two root path literals or the
company-home reference, otherwise resolve the full path recursively and
query `PATH:"${path}/*"`. -/
def getChildren (q : QueryFn) (get : Str → Option AlfNode) (store : StoreRef)
    (nodeRef : Str) : Except GcErr (List MappedNode) :=
  match getCompanyHome q store with
  | .error e => .error (.companyHome e)
  | .ok companyHome =>
    let normalizedNodeRef := normalizeNodeRef nodeRef
    if normalizedNodeRef = str "/app:company_home" ∨
       normalizedNodeRef = str "/app:company_home/*" ∨
       normalizedNodeRef = normalizeNodeRef companyHome.nodeRef then
      match q store rootChildrenStmt with
      | none => .error .rootQueryFailed
      | some result => .ok ((crudeNodes result).map mapSimple)
    else
      match resolvePathForNodeRef get nodeRef 0 (some companyHome.nodeRef) with
      | .error e => .error (.resolveFailed e)
      | .ok path =>
        match q store (pathStarStmt path) with
        | none => .error .pathQueryFailed
        | some result => .ok ((crudeNodes result).map mapSimple)

/-- The cause recorded in the aggregated failure of the fallback variant. -/
inductive FallbackCause where
  | resolveFailed (e : ResolveError)
  | pathQueryFailed
deriving DecidableEq

/-- The errors the fallback variant of `getChildren` can surface; the
`aggregated` constructor is the single
`'Failed to get children for nodeRef X: ...'` error, naming the original
reference and the innermost cause. -/
inductive GcFbErr where
  | companyHome (e : ChErr)
  | rootQueryFailed
  | aggregated (nodeRef : Str) (cause : FallbackCause)
deriving DecidableEq

/-- `getChildren` of the revision in src/unnamed/part_004 (lines 301-353):
the same root short-circuit (through `extractNodesFromQueryResponse`), then
a direct `repoService.getNodeChildren` attempt, falling back on failure to
path resolution plus a `PATH:"${path}/*"` query, and aggregating the
fallback failure with the original reference. `getNodeChildren` is the
direct child-listing transport operation (`none` = it threw). -/
def getChildrenWithFallback (q : QueryFn) (get : Str → Option AlfNode)
    (getNodeChildren : Str → Option (List NodeRecord)) (store : StoreRef)
    (nodeRef : Str) : Except GcFbErr (List NodeRecord) :=
  match getCompanyHome q store with
  | .error e => .error (.companyHome e)
  | .ok companyHome =>
    let normalizedNodeRef := normalizeNodeRef nodeRef
    if normalizedNodeRef = str "/app:company_home" ∨
       normalizedNodeRef = str "/app:company_home/*" ∨
       normalizedNodeRef = normalizeNodeRef companyHome.nodeRef then
      match q store rootChildrenStmt with
      | none => .error .rootQueryFailed
      | some result => .ok (extractNodesFromQueryResponse (some result))
    else
      match getNodeChildren nodeRef with
      | some children => .ok children
      | none =>
        match resolvePathForNodeRef get nodeRef 0 (some companyHome.nodeRef) with
        | .error e => .error (.aggregated nodeRef (.resolveFailed e))
        | .ok path =>
          match q store (pathStarStmt path) with
          | none => .error (.aggregated nodeRef .pathQueryFailed)
          | some result => .ok (extractNodesFromQueryResponse (some result))

/-- The fixed root-children pipeline of `getChildren` (src/index.ts): the
company-home lookup followed by the `PATH:"/app:company_home/*"` query and
the crude map.  Only `q` is consulted. -/
def rootChildrenViaQuery (q : QueryFn) (store : StoreRef) :
    Except GcErr (List MappedNode) :=
  match getCompanyHome q store with
  | .error e => .error (.companyHome e)
  | .ok _ =>
    match q store rootChildrenStmt with
    | none => .error .rootQueryFailed
    | some result => .ok ((crudeNodes result).map mapSimple)

/-- The fixed root-children pipeline of the fallback variant. -/
def rootChildrenViaQueryFb (q : QueryFn) (store : StoreRef) :
    Except GcFbErr (List NodeRecord) :=
  match getCompanyHome q store with
  | .error e => .error (.companyHome e)
  | .ok _ =>
    match q store rootChildrenStmt with
    | none => .error .rootQueryFailed
    | some result => .ok (extractNodesFromQueryResponse (some result))

/-- C7: a caller-supplied reference that normalizes to one of the two root
path literals or to the company-home reference takes the fixed root query:
both façade variants produce a result that does not depend on the node
fetcher or the direct child-listing operation (so the Path Resolver is
never consulted), and that result is the fixed root-children pipeline. -/
theorem root_short_circuit (q : QueryFn) (store : StoreRef) (nodeRef : Str)
    (hroot : normalizeNodeRef nodeRef = str "/app:company_home" ∨
      normalizeNodeRef nodeRef = str "/app:company_home/*" ∨
      (∃ ch, getCompanyHome q store = .ok ch ∧
        normalizeNodeRef nodeRef = normalizeNodeRef ch.nodeRef)) :
    (∀ get get', getChildren q get store nodeRef = getChildren q get' store nodeRef) ∧
    (∀ get, getChildren q get store nodeRef = rootChildrenViaQuery q store) ∧
    (∀ get get' d d', getChildrenWithFallback q get d store nodeRef =
      getChildrenWithFallback q get' d' store nodeRef) ∧
    (∀ get d, getChildrenWithFallback q get d store nodeRef =
      rootChildrenViaQueryFb q store) := by
  have hcond : ∀ ch, getCompanyHome q store = .ok ch →
      (normalizeNodeRef nodeRef = str "/app:company_home" ∨
       normalizeNodeRef nodeRef = str "/app:company_home/*" ∨
       normalizeNodeRef nodeRef = normalizeNodeRef ch.nodeRef) := by
    intro ch hch
    rcases hroot with h | h | ⟨ch', hch', he⟩
    · exact Or.inl h
    · exact Or.inr (Or.inl h)
    · rw [hch] at hch'
      injection hch' with h2
      exact Or.inr (Or.inr (h2 ▸ he))
  have key : ∀ get, getChildren q get store nodeRef = rootChildrenViaQuery q store := by
    intro get
    rw [getChildren, rootChildrenViaQuery]
    cases hch : getCompanyHome q store with
    | error e => rfl
    | ok ch =>
      dsimp only
      rw [if_pos (hcond ch hch)]
  have keyFb : ∀ get d, getChildrenWithFallback q get d store nodeRef =
      rootChildrenViaQueryFb q store := by
    intro get d
    rw [getChildrenWithFallback, rootChildrenViaQueryFb]
    cases hch : getCompanyHome q store with
    | error e => rfl
    | ok ch =>
      dsimp only
      rw [if_pos (hcond ch hch)]
  exact ⟨fun get get' => (key get).trans (key get').symm, key,
    fun get get' d d' => (keyFb get d).trans (keyFb get' d').symm, keyFb⟩

/-- C8: for a non-root reference the fallback façade first attempts the
direct child-listing operation; a direct success is returned as-is (so no
fallback and no path resolution occur); only on direct failure does it
resolve the full path and query its children; and when the fallback fails
too it surfaces the single aggregated failure naming the original
reference and the innermost cause. -/
theorem direct_then_fallback (q : QueryFn) (get : Str → Option AlfNode)
    (d : Str → Option (List NodeRecord)) (store : StoreRef) (nodeRef : Str)
    (ch : CompanyHome) (hch : getCompanyHome q store = .ok ch)
    (hroot : ¬(normalizeNodeRef nodeRef = str "/app:company_home" ∨
      normalizeNodeRef nodeRef = str "/app:company_home/*" ∨
      normalizeNodeRef nodeRef = normalizeNodeRef ch.nodeRef)) :
    (∀ children, d nodeRef = some children →
       getChildrenWithFallback q get d store nodeRef = .ok children) ∧
    (∀ e, d nodeRef = none →
       resolvePathForNodeRef get nodeRef 0 (some ch.nodeRef) = .error e →
       getChildrenWithFallback q get d store nodeRef =
         .error (.aggregated nodeRef (.resolveFailed e))) ∧
    (∀ path, d nodeRef = none →
       resolvePathForNodeRef get nodeRef 0 (some ch.nodeRef) = .ok path →
       q store (pathStarStmt path) = none →
       getChildrenWithFallback q get d store nodeRef =
         .error (.aggregated nodeRef .pathQueryFailed)) ∧
    (∀ path result, d nodeRef = none →
       resolvePathForNodeRef get nodeRef 0 (some ch.nodeRef) = .ok path →
       q store (pathStarStmt path) = some result →
       getChildrenWithFallback q get d store nodeRef =
         .ok (extractNodesFromQueryResponse (some result))) := by
  refine ⟨?_, ?_, ?_, ?_⟩
  · intro children hd
    rw [getChildrenWithFallback, hch]
    dsimp only
    rw [if_neg hroot, hd]
  · intro e hd hres
    rw [getChildrenWithFallback, hch]
    dsimp only
    rw [if_neg hroot, hd, hres]
  · intro path hd hres hq
    rw [getChildrenWithFallback, hch]
    dsimp only
    rw [if_neg hroot, hd, hres]
    dsimp only
    rw [hq]
  · intro path result hd hres hq
    rw [getChildrenWithFallback, hch]
    dsimp only
    rw [if_neg hroot, hd, hres]
    dsimp only
    rw [hq]

-- ===== Fixtures for the recursion-ceiling and façade claims =====

/-- A two-node cyclic parent graph: fetching `a` yields a node whose
parent is `b`, and conversely. -/
def cycleGet : Str → Option AlfNode :=
  fun r =>
    if r = str "a" then some ⟨none, none, none, none, some (str "b"), none, none, none⟩
    else if r = str "b" then some ⟨none, none, none, none, some (str "a"), none, none, none⟩
    else none

/-- An unbounded synthetic parent chain: every node's parent prefixes one
more `x` to the reference, so any resolution walks more than 51 links. -/
def chainGet : Str → Option AlfNode :=
  fun r => some ⟨none, none, none, none, some ('x' :: r), none, none, none⟩

/-- A query transport that answers only the company-home lookup, with a
fixed company-home reference distinct from the cycle/chain references. -/
def chQuery : QueryFn :=
  fun _ stmt =>
    if stmt = companyHomeStmt then
      some ⟨some (.arr [⟨some (str "workspace://SpacesStore/ch-000"),
        some (str "Company Home"), none, none, none⟩]), none, none, none⟩
    else none

/-- The configured store of the fixtures. -/
def store0 : StoreRef := ⟨str "workspace", str "SpacesStore"⟩

/-- The company-home record the fixture transport produces. -/
def chRec : CompanyHome := ⟨str "workspace://SpacesStore/ch-000", str "Company Home"⟩

/-- A direct child-listing operation that always fails. -/
def noDirect : Str → Option (List NodeRecord) := fun _ => none

/-- C1 counterexample: on the two-node parent cycle `a ↔ b`, resolving `a`
fails with `RecursionLimitExceeded` naming `b` — the reference of the
frame at which the ceiling was exceeded — not the original reference
`a`. -/
theorem recursion_limit_names_frame_not_origin :
    resolvePathForNodeRef cycleGet (str "a") 0 none =
      .error (.recursionLimit (str "b")) ∧
    str "b" ≠ str "a" := ⟨by decide, by decide⟩

/-- The node name a successful resolution step appends contains no slash
when the fetcher only supplies slash-free names: the namespace tag is
`"cm:"` or empty. -/
theorem nsTagOf_count_slash (node : AlfNode) : (nsTagOf node).count '/' = 0 := by
  simp only [nsTagOf]
  split
  · decide
  · decide

/-- Slash-count bound for the resolver: with slash-free node names, a
successful resolution with budget `gas` yields a path with at most `gas`
slashes (the budget-0 call never succeeds, each level appends at most one
separator, and the terminal paths hold one). -/
theorem resolveAux_ok_slash_bound (get : Str → Option AlfNode)
    (companyHomeNodeRef : Option Str)
    (hn : ∀ r node, get r = some node → ((resolvedNameOf node).getD []).count '/' = 0) :
    ∀ gas nodeRef p, resolveAux get companyHomeNodeRef gas nodeRef = .ok p →
      p.count '/' ≤ gas := by
  intro gas
  induction gas with
  | zero =>
    intro nodeRef p h
    rw [resolveAux] at h
    split at h <;> exact Except.noConfusion h
  | succ gas ih =>
    intro nodeRef p h
    rw [resolveAux] at h
    split at h
    · exact Except.noConfusion h
    · split at h
      · exact Except.noConfusion h
      next node hget =>
        split at h
        · injection h with hp
          subst hp
          have h1 : (str "/app:company_home").count '/' = 1 := by decide
          omega
        · split at h
          · injection h with hp
            subst hp
            have h1 : (str "/").count '/' = 1 := by decide
            omega
          · split at h
            · exact Except.noConfusion h
            next parentRef hpar =>
              split at h
              · exact Except.noConfusion h
              · split at h
                next e hrec => exact Except.noConfusion h
                next parentPath hrec =>
                  split at h
                  · exact Except.noConfusion h
                  next nodeName hnm =>
                    split at h
                    · exact Except.noConfusion h
                    · have hpp := ih parentRef parentPath hrec
                      have hns := nsTagOf_count_slash node
                      have hnn : nodeName.count '/' = 0 := by
                        have hcount := hn nodeRef node hget
                        rw [hnm] at hcount
                        simpa using hcount
                      split at h
                      · injection h with hp
                        subst hp
                        rw [List.count_append, List.count_append]
                        omega
                      · injection h with hp
                        subst hp
                        rw [List.count_append, List.count_append, List.count_append]
                        have h1 : (str "/").count '/' = 1 := by decide
                        omega

/-- C1 (amended): exceeding the recursion ceiling of 50 fails the
resolution with `RecursionLimitExceeded` naming the reference of the frame
at which the ceiling was exceeded; on the 2-node cycle and on the
synthetic 51-link parent chain, `getChildren` on the deepest node
terminates with exactly that failure; and (for slash-free node names) a
successfully resolved path holds at most 51 = ceiling + 1 path
separators. -/
theorem recursion_ceiling_behaviour :
    (∀ (get : Str → Option AlfNode) (companyHomeNodeRef : Option Str)
       (nodeRef : Str) (depth : Nat), 50 < depth → nodeRef ≠ [] →
       resolvePathForNodeRef get nodeRef depth companyHomeNodeRef =
         .error (.recursionLimit nodeRef)) ∧
    getChildren chQuery cycleGet store0 (str "a") =
      .error (.resolveFailed (.recursionLimit (str "b"))) ∧
    getChildren chQuery chainGet store0 (str "n") =
      .error (.resolveFailed (.recursionLimit (List.replicate 51 'x' ++ str "n"))) ∧
    (∀ (get : Str → Option AlfNode) (companyHomeNodeRef : Option Str)
       (nodeRef p : Str),
       (∀ r node, get r = some node →
          ((resolvedNameOf node).getD []).count '/' = 0) →
       resolvePathForNodeRef get nodeRef 0 companyHomeNodeRef = .ok p →
       p.count '/' ≤ 51) := by
  refine ⟨?_, by decide, by decide, ?_⟩
  · intro get companyHomeNodeRef nodeRef depth hdepth hne
    rw [resolvePathForNodeRef, show 51 - depth = 0 from by omega, resolveAux, if_neg hne]
  · intro get companyHomeNodeRef nodeRef p hn hok
    rw [resolvePathForNodeRef] at hok
    exact resolveAux_ok_slash_bound get companyHomeNodeRef hn (51 - 0) nodeRef p hok

/-- C1 witness: the depth-exceeded branch evaluated at depth 51. -/
theorem recursion_ceiling_behaviour_witness :
    resolvePathForNodeRef cycleGet (str "a") 51 none =
      .error (.recursionLimit (str "a")) :=
  recursion_ceiling_behaviour.1 cycleGet none (str "a") 51 (by decide) (by decide)

/-- C7 witness: the root short-circuit theorem applied to the literal root
path (in mixed case): exchanging the node fetcher leaves the result
unchanged. -/
theorem root_short_circuit_witness :
    getChildren chQuery cycleGet store0 (str "/APP:Company_Home") =
      getChildren chQuery chainGet store0 (str "/APP:Company_Home") :=
  (root_short_circuit chQuery store0 (str "/APP:Company_Home")
    (Or.inl (by decide))).1 cycleGet chainGet

/-- C8 witness: with the direct operation failing on the cyclic graph, the
façade surfaces the aggregated failure naming the original reference and
the recursion-limit cause. -/
theorem direct_then_fallback_witness :
    getChildrenWithFallback chQuery cycleGet noDirect store0 (str "a") =
      .error (.aggregated (str "a") (.resolveFailed (.recursionLimit (str "b")))) :=
  (direct_then_fallback chQuery cycleGet noDirect store0 (str "a") chRec
    (by decide) (by decide)).2.1 (.recursionLimit (str "b")) rfl (by decide)

-- ===== Authentication =====

/-- The authentication-relevant state of an `AlfrescoClient`: the held
ticket and the number of remote `authService.login` calls the instance has
issued (an observation of the transport). -/
structure AuthClient where
  ticket : Option Str
  loginCalls : Nat
deriving DecidableEq

/-- `AlfrescoClient.authenticate` (src/alfresco-soap-api/src/index.ts,
lines 26-30): `this.ticket = await this.authService.login(...)` — the
remote login is issued unconditionally (`AuthenticationService.login`
always calls `startSession`, src/unnamed/part_007 lines 8-13) and the held
ticket is overwritten with whatever the transport returns
(`loginTicket`). -/
def authenticate (loginTicket : Str) (c : AuthClient) : AuthClient :=
  { ticket := some loginTicket, loginCalls := c.loginCalls + 1 }

/-- C9: `authenticate` is not a no-op when a ticket is already held — every
call performs one more remote login, and a client holding `t0` whose
transport now issues `t1` ends up with a changed ticket. -/
theorem authenticate_always_relogs :
    (∀ (loginTicket : Str) (c : AuthClient),
       (authenticate loginTicket c).loginCalls = c.loginCalls + 1) ∧
    authenticate (str "t1") ⟨some (str "t0"), 5⟩ = ⟨some (str "t1"), 6⟩ ∧
    (authenticate (str "t1") ⟨some (str "t0"), 5⟩).ticket ≠ some (str "t0") := by
  refine ⟨fun loginTicket c => rfl, by decide, by decide⟩
